import Mathlib

/-!
Verification of the active (growing) node layer of an append-only, arity-4
authenticated tree (source: `src/node/active.rs`).

The embedding is a shallow one:
* `Hash` is the opaque hash primitive, modelled as a free term algebra with
  the two operations the active layer uses: the `padding` constant and the
  height-tagged four-way combination `Hash.node`.
* `Three α` is the external fixed-capacity (0–3) sibling buffer, with the
  tagged views of `elems()` being the constructors themselves and `push`
  succeeding under capacity and otherwise handing back all four entries.
* `ActiveNode φ σ` is `Active<Focus>`: a focus of type `φ`, a sibling
  buffer of `Except Hash σ` entries (Rust `Result<Focus::Complete, Hash>`,
  `Except.ok` = retained frozen child, `Except.error` = bare hash of a
  pruned child), and the interior-mutable hash cache as an `Option Hash`
  threaded explicitly through the operations that touch it.
* The focus type's trait methods (`hash`, `insert`, `singleton`, `complete`,
  `alter`) and its height constant are passed as explicit parameters
  (`fhash`, `fInsert`, `fSingleton`, `fComplete`, `fAlter`, `fh`), so every
  theorem quantifies over all possible focus instantiations.
* The frozen-node layer (`super::Complete`) is not part of the source under
  verification; it is modelled from the spec where the claims need it.
-/

namespace PenumbraActive

/-- Decidable equality for `Except` (Rust `Result`), so concrete instances of
the model can be evaluated by `decide`. -/
instance instDecEqExcept {ε α : Type} [DecidableEq ε] [DecidableEq α] :
    DecidableEq (Except ε α) := fun x y =>
  match x, y with
  | .ok a, .ok b => if h : a = b then .isTrue (by rw [h]) else .isFalse (by simp [h])
  | .error a, .error b => if h : a = b then .isTrue (by rw [h]) else .isFalse (by simp [h])
  | .ok _, .error _ => .isFalse (by simp)
  | .error _, .ok _ => .isFalse (by simp)

/-- The opaque hash primitive, as a free term algebra: `padding` is the fixed
padding value for missing children, `node` is the domain-separated combination
`Hash::node(height, a, b, c, d)`, and `base` injects arbitrary opaque hash
values (e.g. hashes of leaf items) so that concrete instances can be built. -/
inductive Hash : Type where
  | padding : Hash
  | node (height : Nat) (a b c d : Hash) : Hash
  | base (n : Nat) : Hash
deriving DecidableEq, Repr

/-- The external fixed-capacity sibling buffer `Three<T>`: holds 0 to 3
entries in insertion order.  The constructors are exactly the tagged views
returned by `Three::elems()` (`Elems::_0` .. `Elems::_3`). -/
inductive Three (α : Type) : Type where
  | zero : Three α
  | one (a : α) : Three α
  | two (a b : α) : Three α
  | three (a b c : α) : Three α
deriving DecidableEq, Repr

namespace Three

/-- `Three::new()`: the empty buffer. -/
def new {α : Type} : Three α := Three.zero

/-- `Three::push(self, item)`: appends while under capacity; at capacity it
fails, returning all four entries (the 3 existing ones in order, then the
rejected one). -/
def push {α : Type} : Three α → α → Except (α × α × α × α) (Three α)
  | .zero, x => .ok (.one x)
  | .one a, x => .ok (.two a x)
  | .two a b, x => .ok (.three a b x)
  | .three a b c, x => .error (a, b, c, x)

/-- The entries of the buffer as a list, in insertion order (a statement
device for the theorems; the buffer itself is the tagged view). -/
def toList {α : Type} : Three α → List α
  | .zero => []
  | .one a => [a]
  | .two a b => [a, b]
  | .three a b c => [a, b, c]

end Three

/-- The hash of one sibling-buffer entry `Result<T, Hash>`: the frozen
subtree's hash if retained, or the stored placeholder hash directly
(the body of the inner `hashes_of_all` helper of `hash_active`, per entry:
`result.as_ref().map(|complete| complete.hash()).unwrap_or_else(|hash| *hash)`). -/
def hash_of_item {σ : Type} (chash : σ → Hash) : Except Hash σ → Hash
  | .ok complete => chash complete
  | .error h => h

/-- `hash_active(siblings, focus)`: the four ordered child hashes are the
sibling entries' hashes (in order), then the focus's hash, then padding up to
four; they are combined at height `Focus::HEIGHT + 1`.  `chash` is
`Focus::Complete`'s `hash()`, `fhash` is `Focus`'s `hash()`, `fh` is
`Focus::HEIGHT`. -/
def hash_active {φ σ : Type} (chash : σ → Hash) (fhash : φ → Hash) (fh : Nat)
    (siblings : Three (Except Hash σ)) (focus : φ) : Hash :=
  match siblings with
  | .zero => Hash.node (fh + 1) (fhash focus) Hash.padding Hash.padding Hash.padding
  | .one s1 => Hash.node (fh + 1) (hash_of_item chash s1) (fhash focus) Hash.padding Hash.padding
  | .two s1 s2 =>
      Hash.node (fh + 1) (hash_of_item chash s1) (hash_of_item chash s2) (fhash focus) Hash.padding
  | .three s1 s2 s3 =>
      Hash.node (fh + 1) (hash_of_item chash s1) (hash_of_item chash s2) (hash_of_item chash s3)
        (fhash focus)

/-- `Active<Focus>`: the focus, the sibling buffer of
`Result<Focus::Complete, Hash>` entries, and the `Cell<Option<Hash>>` hash
cache made explicit. -/
structure ActiveNode (φ σ : Type) : Type where
  focus : φ
  siblings : Three (Except Hash σ)
  hash : Option Hash
deriving DecidableEq, Repr

/-- `Active::from_parts(siblings, focus)`: always starts with an empty
hash cache. -/
def from_parts {φ σ : Type} (siblings : Three (Except Hash σ)) (focus : φ) : ActiveNode φ σ :=
  { hash := none, siblings := siblings, focus := focus }

/-- The `Height` impl for `Active<Focus>`: a compile-time constant that is
`Focus::HEIGHT + 1` when `Focus::HEIGHT` equals `Focus::Complete::HEIGHT`,
and otherwise `panic!`s at type-composition time; the panic (a failing const
evaluation, so no value is ever produced) is modelled as `none`. -/
def activeHEIGHT (fh compH : Nat) : Option Nat :=
  if fh = compH then some (fh + 1) else none

/-- The `GetHash` impl for `Active<Focus>`: return the cached hash if
present, otherwise compute `hash_active`, store it in the cache, and return
it.  The cache write is made explicit by returning the updated node. -/
def getHash {φ σ : Type} (chash : σ → Hash) (fhash : φ → Hash) (fh : Nat)
    (n : ActiveNode φ σ) : Hash × ActiveNode φ σ :=
  match n.hash with
  | some h => (h, n)
  | none =>
      let h := hash_active chash fhash fh n.siblings n.focus
      (h, { n with hash := some h })

/-- Modelled from the spec: the frozen-node layer's node type
(`super::Complete`, not under `src/`).  Per the spec it has exactly four
children, each either a fully-retained frozen subtree of the level below or
a bare hash standing in for a pruned one, and it supports force-assigning a
known-correct hash (`set_hash_unchecked`), so it carries an optional stored
hash alongside its children. -/
structure CompleteNode (σ : Type) : Type where
  c0 : Except Hash σ
  c1 : Except Hash σ
  c2 : Except Hash σ
  c3 : Except Hash σ
  cachedHash : Option Hash
deriving DecidableEq, Repr

namespace CompleteNode

/-- Modelled from the spec: `set_hash_unchecked(hash)` force-assigns a
known-correct hash onto a frozen node, bypassing recomputation. -/
def set_hash_unchecked {σ : Type} (n : CompleteNode σ) (h : Hash) : CompleteNode σ :=
  { n with cachedHash := some h }

/-- The hash recomputation from a frozen node's four children: the
domain-separated combination, at the node's height, of the children's hashes
(each child's hash resolving the retain/prune duality transparently). -/
def recomputedHash {σ : Type} (chash : σ → Hash) (height : Nat) (n : CompleteNode σ) : Hash :=
  Hash.node height (hash_of_item chash n.c0) (hash_of_item chash n.c1)
    (hash_of_item chash n.c2) (hash_of_item chash n.c3)

/-- Modelled from the spec: the frozen node's `hash()` — the stored hash if
one was assigned, otherwise the recomputation from its four children. -/
def getHash {σ : Type} (chash : σ → Hash) (height : Nat) (n : CompleteNode σ) : Hash :=
  match n.cachedHash with
  | some h => h
  | none => recomputedHash chash height n

end CompleteNode

/-- Modelled from the spec: the frozen-node layer's
`from_children_or_else_hash(four_children) -> frozen node or bare hash`.
Per the source's comment, the children are hashed together only when all of
them are pruned (otherwise that information would be lost); if at least one
child is preserved, a `Complete` node retaining the children is produced and
the node hash is left uncomputed (deferred). -/
def from_children_or_else_hash {σ : Type} (height : Nat)
    (c : Except Hash σ × Except Hash σ × Except Hash σ × Except Hash σ) :
    Except Hash (CompleteNode σ) :=
  match c with
  | (.error h0, .error h1, .error h2, .error h3) =>
      .error (Hash.node height h0 h1 h2 h3)
  | (c0, c1, c2, c3) => .ok ⟨c0, c1, c2, c3, none⟩

/-- The combined hash of a carry `Result<Complete, Hash>`: the bare hash
itself, or the frozen node's hash. -/
def carryHash {σ : Type} (chash : σ → Hash) (height : Nat) :
    Except Hash (CompleteNode σ) → Hash
  | .error h => h
  | .ok node => node.getHash chash height

/-- Modelled from the spec: the frozen-node layer's
`from_siblings_and_focus_or_else_hash(siblings, completed_focus)`.  It
succeeds (producing a frozen node) only if all 4 children are present —
3 full siblings plus the completed focus — delegating to
`from_children_or_else_hash`; otherwise it yields just the combined hash of
the children padded up to four. -/
def from_siblings_and_focus_or_else_hash {σ : Type} (chash : σ → Hash) (height : Nat)
    (siblings : Three (Except Hash σ)) (focus : Except Hash σ) :
    Except Hash (CompleteNode σ) :=
  match siblings with
  | .zero =>
      .error (Hash.node height (hash_of_item chash focus) Hash.padding Hash.padding Hash.padding)
  | .one s1 =>
      .error (Hash.node height (hash_of_item chash s1) (hash_of_item chash focus)
        Hash.padding Hash.padding)
  | .two s1 s2 =>
      .error (Hash.node height (hash_of_item chash s1) (hash_of_item chash s2)
        (hash_of_item chash focus) Hash.padding)
  | .three s1 s2 s3 => from_children_or_else_hash height (s1, s2, s3, focus)

/-- `Active::singleton(item)`: a fresh focus `Focus::singleton(item)` with an
empty sibling buffer (and, via `from_parts`, an empty hash cache). -/
def activeSingleton {φ σ ι : Type} (fSingleton : ι → φ) (item : ι) : ActiveNode φ σ :=
  from_parts Three.new (fSingleton item)

/-- `Active::complete(self)`: delegate to the frozen-node layer with the
sibling buffer and the recursively completed focus.  `fComplete` is
`Focus::complete`, `fh` is `Focus::HEIGHT` (this level hashes at `fh + 1`). -/
def activeComplete {φ σ : Type} (fComplete : φ → Except Hash σ) (chash : σ → Hash) (fh : Nat)
    (n : ActiveNode φ σ) : Except Hash (CompleteNode σ) :=
  from_siblings_and_focus_or_else_hash chash (fh + 1) n.siblings (fComplete n.focus)

/-- `Active::alter(f)`: apply the mutator through the focus
(`fAlter` is `Focus::alter`, here in state-passing form: it takes the pure
mutator `f` and the focus and returns the updated focus and the optional
result), then unconditionally clear the hash cache. -/
def activeAlter {φ ι : Type} {T : Type} {σ : Type}
    (fAlter : (ι → ι × T) → φ → φ × Option T) (f : ι → ι × T)
    (n : ActiveNode φ σ) : ActiveNode φ σ × Option T :=
  let r := fAlter f n.focus
  ({ n with focus := r.1, hash := none }, r.2)

/-- `Active::insert(self, item)`: try the focus first; if it absorbed the
item, keep the siblings; otherwise try to push the focus's completed-or-hashed
form into the sibling buffer, building a fresh singleton focus on success;
if the buffer was full, fold the four children through the frozen-node layer
into a carry, transplanting this node's cached hash onto the carry node when
the cache is populated, and hand the carry and the unplaced item up.
`fInsert` is `Focus::insert`, `fSingleton` is `Focus::singleton`, `fh` is
`Focus::HEIGHT` (so the folded carry lives at height `fh + 1`). -/
def activeInsert {φ σ ι : Type}
    (fInsert : φ → ι → Except (ι × Except Hash σ) φ)
    (fSingleton : ι → φ) (fh : Nat)
    (n : ActiveNode φ σ) (item : ι) :
    Except (ι × Except Hash (CompleteNode σ)) (ActiveNode φ σ) :=
  match fInsert n.focus item with
  | .ok focus => .ok (from_parts n.siblings focus)
  | .error (item, sibling) =>
      match n.siblings.push sibling with
      | .ok siblings => .ok (from_parts siblings (fSingleton item))
      | .error complete =>
          .error (item,
            (from_children_or_else_hash (fh + 1) complete).map fun node =>
              match n.hash with
              | some h => node.set_hash_unchecked h
              | none => node)

/-! ## Statement devices

Definitions used only to phrase the properties: simulated pruning of a
sibling entry, and the spec's description of the ordered child-hash list. -/

/-- Pruning one sibling-buffer entry: a fully-retained frozen child is
replaced by its bare hash; an already-pruned entry is left as is. -/
def prune_entry {σ : Type} (chash : σ → Hash) : Except Hash σ → Except Hash σ
  | .ok c => .error (chash c)
  | .error h => .error h

/-- Pruning the sibling buffer at position `i` (0-based insertion order);
other positions are untouched. -/
def prune_at {σ : Type} (chash : σ → Hash) (i : Nat) :
    Three (Except Hash σ) → Three (Except Hash σ)
  | .zero => .zero
  | .one a => .one (if i = 0 then prune_entry chash a else a)
  | .two a b => .two (if i = 0 then prune_entry chash a else a)
      (if i = 1 then prune_entry chash b else b)
  | .three a b c => .three (if i = 0 then prune_entry chash a else a)
      (if i = 1 then prune_entry chash b else b) (if i = 2 then prune_entry chash c else c)

/-- Spec-side description (§4.2, steps 1–4) of the ordered child-hash list:
the sibling entries' hashes in insertion order, then the focus's hash
immediately after the last sibling, then padding hashes filling the
remaining slots up to four.  Stated from the spec's words, to be compared
with the source's `hash_active`. -/
def spec_child_hashes {φ σ : Type} (chash : σ → Hash) (fhash : φ → Hash)
    (siblings : Three (Except Hash σ)) (focus : φ) : List Hash :=
  siblings.toList.map (hash_of_item chash) ++
    fhash focus :: List.replicate (3 - siblings.toList.length) Hash.padding

/-! ## Helper lemmas -/

theorem hash_of_item_prune_entry {σ : Type} (chash : σ → Hash) (e : Except Hash σ) :
    hash_of_item chash (prune_entry chash e) = hash_of_item chash e := by
  cases e <;> rfl

theorem hash_of_item_ite_prune {σ : Type} (chash : σ → Hash) (P : Prop) [Decidable P]
    (e : Except Hash σ) :
    hash_of_item chash (if P then prune_entry chash e else e) = hash_of_item chash e := by
  split
  · exact hash_of_item_prune_entry chash e
  · rfl

theorem from_children_ok_eq {σ : Type} (height : Nat) (c0 c1 c2 c3 : Except Hash σ)
    (node : CompleteNode σ)
    (hok : from_children_or_else_hash height (c0, c1, c2, c3) = Except.ok node) :
    node = ⟨c0, c1, c2, c3, none⟩ := by
  rcases c0 with h0 | x0 <;> rcases c1 with h1 | x1 <;> rcases c2 with h2 | x2 <;>
    rcases c3 with h3 | x3 <;> simp [from_children_or_else_hash] at hok <;>
    simp [← hok]

theorem carryHash_from_children {σ : Type} (chash : σ → Hash) (ht : Nat)
    (c0 c1 c2 c3 : Except Hash σ) :
    carryHash chash ht (from_children_or_else_hash ht (c0, c1, c2, c3)) =
      Hash.node ht (hash_of_item chash c0) (hash_of_item chash c1)
        (hash_of_item chash c2) (hash_of_item chash c3) := by
  rcases c0 with h0 | x0 <;> rcases c1 with h1 | x1 <;> rcases c2 with h2 | x2 <;>
    rcases c3 with h3 | x3 <;>
    simp [from_children_or_else_hash, carryHash, CompleteNode.getHash,
      CompleteNode.recomputedHash, hash_of_item]

theorem carryHash_from_children_transplant {σ : Type} (chash : σ → Hash) (ht : Nat)
    (c0 c1 c2 c3 : Except Hash σ) (hsh : Hash)
    (hval : hsh = Hash.node ht (hash_of_item chash c0) (hash_of_item chash c1)
      (hash_of_item chash c2) (hash_of_item chash c3)) :
    carryHash chash ht
      ((from_children_or_else_hash ht (c0, c1, c2, c3)).map
        fun node => node.set_hash_unchecked hsh) = hsh := by
  subst hval
  rcases c0 with h0 | x0 <;> rcases c1 with h1 | x1 <;> rcases c2 with h2 | x2 <;>
    rcases c3 with h3 | x3 <;>
    simp [from_children_or_else_hash, carryHash, Except.map, CompleteNode.getHash,
      CompleteNode.set_hash_unchecked, CompleteNode.recomputedHash, hash_of_item]

/-! ## Claims -/

/-- C2: for every sibling buffer (0–3 entries) and focus, `hash_active`
combines exactly four child hashes: the sibling entries' hashes in insertion
order, then the focus's hash immediately after the last sibling, then padding
hashes filling the remaining slots up to four, the combination being tagged
with height = focus's height + 1. -/
theorem c2_hash_active_order {φ σ : Type} (chash : σ → Hash) (fhash : φ → Hash) (fh : Nat)
    (siblings : Three (Except Hash σ)) (focus : φ) :
    (spec_child_hashes chash fhash siblings focus).length = 4 ∧
    hash_active chash fhash fh siblings focus =
      Hash.node (fh + 1)
        ((spec_child_hashes chash fhash siblings focus).getD 0 Hash.padding)
        ((spec_child_hashes chash fhash siblings focus).getD 1 Hash.padding)
        ((spec_child_hashes chash fhash siblings focus).getD 2 Hash.padding)
        ((spec_child_hashes chash fhash siblings focus).getD 3 Hash.padding) := by
  cases siblings <;>
    simp [spec_child_hashes, Three.toList, hash_active, List.getD, List.replicate]

/-- C3: replacing any sibling-buffer entry that holds a fully-retained frozen
child by the bare hash of that same child (simulated pruning) leaves the
node's computed hash (`hash_active` over the siblings and focus) unchanged. -/
theorem c3_prune_invariance {φ σ : Type} (chash : σ → Hash) (fhash : φ → Hash) (fh : Nat)
    (i : Nat) (siblings : Three (Except Hash σ)) (focus : φ) :
    hash_active chash fhash fh (prune_at chash i siblings) focus =
      hash_active chash fhash fh siblings focus := by
  cases siblings <;> simp [prune_at, hash_active, hash_of_item_ite_prune]

/-- C5: the composed height of `Active<Focus>` is `Focus`'s height plus one
whenever `Focus`'s height agrees with the height of `Focus`'s completed
form, and when the two disagree the height computation aborts (the constant
evaluates to no value, modelled as `none`) instead of producing a value. -/
theorem c5_height_composition (fh compH : Nat) :
    (fh = compH → activeHEIGHT fh compH = some (fh + 1)) ∧
    (fh ≠ compH → activeHEIGHT fh compH = none) := by
  constructor <;> intro h <;> simp [activeHEIGHT, h]

/-- Witness for C5: a matching composition at height 3 yields height 4, and
a deliberately mismatched composition (3 vs 7) aborts. -/
theorem c5_height_composition_witness :
    activeHEIGHT 3 3 = some 4 ∧ activeHEIGHT 3 7 = none :=
  ⟨(c5_height_composition 3 3).1 rfl, (c5_height_composition 3 7).2 (by decide)⟩

/-- C6: on a node whose hash cache is empty, the first `hash()` call computes
`hash_active` over the siblings and focus, stores exactly that value in the
cache and returns it, leaving the siblings and focus unchanged (the cache
write is the only mutation); a subsequent `hash()` call without intervening
mutation returns the identical value and the identical node, by reading the
cache. -/
theorem c6_hash_caching {φ σ : Type} (chash : σ → Hash) (fhash : φ → Hash) (fh : Nat)
    (n : ActiveNode φ σ) (hc : n.hash = none) :
    (getHash chash fhash fh n).1 = hash_active chash fhash fh n.siblings n.focus ∧
    (getHash chash fhash fh n).2.siblings = n.siblings ∧
    (getHash chash fhash fh n).2.focus = n.focus ∧
    (getHash chash fhash fh n).2.hash = some ((getHash chash fhash fh n).1) ∧
    getHash chash fhash fh ((getHash chash fhash fh n).2) = getHash chash fhash fh n := by
  simp [getHash, hc]

/-- Witness for C6: the cache behaviour of `hash()` at a concrete node with
one retained sibling, one pruned sibling, focus `5`, and an empty cache. -/
theorem c6_hash_caching_witness :
    ((⟨5, Three.two (Except.ok 1) (Except.error (Hash.base 2)), none⟩ :
        ActiveNode Nat Nat).hash = none) ∧
    ((getHash Hash.base Hash.base 0
        (⟨5, Three.two (Except.ok 1) (Except.error (Hash.base 2)), none⟩ :
          ActiveNode Nat Nat)).1 =
      hash_active Hash.base Hash.base 0
        (Three.two (Except.ok 1) (Except.error (Hash.base 2))) 5 ∧
      (getHash Hash.base Hash.base 0
        (⟨5, Three.two (Except.ok 1) (Except.error (Hash.base 2)), none⟩ :
          ActiveNode Nat Nat)).2.siblings =
        Three.two (Except.ok 1) (Except.error (Hash.base 2)) ∧
      (getHash Hash.base Hash.base 0
        (⟨5, Three.two (Except.ok 1) (Except.error (Hash.base 2)), none⟩ :
          ActiveNode Nat Nat)).2.focus = 5 ∧
      (getHash Hash.base Hash.base 0
        (⟨5, Three.two (Except.ok 1) (Except.error (Hash.base 2)), none⟩ :
          ActiveNode Nat Nat)).2.hash =
        some ((getHash Hash.base Hash.base 0
          (⟨5, Three.two (Except.ok 1) (Except.error (Hash.base 2)), none⟩ :
            ActiveNode Nat Nat)).1) ∧
      getHash Hash.base Hash.base 0
        ((getHash Hash.base Hash.base 0
          (⟨5, Three.two (Except.ok 1) (Except.error (Hash.base 2)), none⟩ :
            ActiveNode Nat Nat)).2) =
        getHash Hash.base Hash.base 0
          (⟨5, Three.two (Except.ok 1) (Except.error (Hash.base 2)), none⟩ :
            ActiveNode Nat Nat)) :=
  ⟨rfl, c6_hash_caching Hash.base Hash.base 0 _ rfl⟩

/-- C7: `alter` applies the mutator through the focus (returning exactly what
the focus's `alter` returns, `none` included when the recursion bottomed out
without an active item), leaves the siblings untouched, and unconditionally
clears the hash cache, so that a following `hash()` recomputes from the
possibly-mutated content rather than returning a stale cached value. -/
theorem c7_alter_invalidates {φ σ ι T : Type}
    (fAlter : (ι → ι × T) → φ → φ × Option T) (f : ι → ι × T)
    (chash : σ → Hash) (fhash : φ → Hash) (fh : Nat) (n : ActiveNode φ σ) :
    (activeAlter fAlter f n).2 = (fAlter f n.focus).2 ∧
    (activeAlter fAlter f n).1.focus = (fAlter f n.focus).1 ∧
    (activeAlter fAlter f n).1.siblings = n.siblings ∧
    (activeAlter fAlter f n).1.hash = none ∧
    (getHash chash fhash fh (activeAlter fAlter f n).1).1 =
      hash_active chash fhash fh n.siblings (fAlter f n.focus).1 := by
  simp [activeAlter, getHash]

/-- C8: when the recursive focus insertion succeeds, `insert` succeeds with a
node made of exactly the original sibling buffer, unchanged, paired with the
new focus (and a fresh, empty hash cache via `from_parts`). -/
theorem c8_insert_focus_frame {φ σ ι : Type}
    (fInsert : φ → ι → Except (ι × Except Hash σ) φ) (fSingleton : ι → φ) (fh : Nat)
    (n : ActiveNode φ σ) (item : ι) (focus' : φ)
    (hfoc : fInsert n.focus item = Except.ok focus') :
    activeInsert fInsert fSingleton fh n item =
      Except.ok ⟨focus', n.siblings, none⟩ := by
  simp [activeInsert, hfoc, from_parts]

/-- Witness for C8: a concrete focus insertion that succeeds leaves the
sibling buffer untouched. -/
theorem c8_insert_focus_frame_witness :
    ((fun (s : Nat) (i : Nat) => Except.ok (s + i) :
        Nat → Nat → Except (Nat × Except Hash Nat) Nat) 5 2 = Except.ok 7) ∧
    activeInsert (fun s i => Except.ok (s + i)) (fun i => i) 0
        (⟨5, Three.one (Except.ok 4), none⟩ : ActiveNode Nat Nat) 2 =
      Except.ok ⟨7, Three.one (Except.ok 4), none⟩ :=
  ⟨rfl, c8_insert_focus_frame (fun s i => Except.ok (s + i)) (fun i => i) 0 _ 2 7 rfl⟩

/-- C9: when the focus rejects the item but the sibling buffer still has room
(0, 1 or 2 entries), `insert` succeeds with a node whose sibling buffer is
the old buffer with the focus's completed-or-hashed form appended at the end,
and whose focus is `Focus::singleton` of the handed-back item. -/
theorem c9_insert_sibling_append {φ σ ι : Type}
    (fInsert : φ → ι → Except (ι × Except Hash σ) φ) (fSingleton : ι → φ) (fh : Nat)
    (n : ActiveNode φ σ) (item item' : ι) (sibling : Except Hash σ)
    (siblings' : Three (Except Hash σ))
    (hfoc : fInsert n.focus item = Except.error (item', sibling))
    (hroom : n.siblings.push sibling = Except.ok siblings') :
    activeInsert fInsert fSingleton fh n item =
      Except.ok ⟨fSingleton item', siblings', none⟩ ∧
    siblings'.toList = n.siblings.toList ++ [sibling] := by
  refine ⟨by simp [activeInsert, hfoc, hroom, from_parts], ?_⟩
  rcases hs : n.siblings with _ | a | ⟨a, b⟩ | ⟨a, b, c⟩ <;> rw [hs] at hroom <;>
    simp [Three.push] at hroom <;> simp [← hroom, Three.toList, hs]

/-- Witness for C9: a concrete rejected insertion with a buffer of 2 entries
appends the focus's completed form and restarts the focus as a singleton. -/
theorem c9_insert_sibling_append_witness :
    ((fun (_ : Nat) (i : Nat) => Except.error (i, Except.error (Hash.base 5)) :
        Nat → Nat → Except (Nat × Except Hash Nat) Nat) 5 2 =
      Except.error (2, Except.error (Hash.base 5))) ∧
    ((Three.two (Except.ok 1) (Except.ok 2) :
        Three (Except Hash Nat)).push (Except.error (Hash.base 5)) =
      Except.ok (Three.three (Except.ok 1) (Except.ok 2) (Except.error (Hash.base 5)))) ∧
    (activeInsert (fun _ i => Except.error (i, Except.error (Hash.base 5))) (fun i => i) 0
        (⟨5, Three.two (Except.ok 1) (Except.ok 2), none⟩ : ActiveNode Nat Nat) 2 =
      Except.ok ⟨2, Three.three (Except.ok 1) (Except.ok 2) (Except.error (Hash.base 5)),
        none⟩ ∧
      (Three.three (Except.ok 1) (Except.ok 2)
          (Except.error (Hash.base 5)) : Three (Except Hash Nat)).toList =
        (Three.two (Except.ok 1) (Except.ok 2) : Three (Except Hash Nat)).toList ++
          [Except.error (Hash.base 5)]) :=
  ⟨rfl, rfl,
    c9_insert_sibling_append (fun _ i => Except.error (i, Except.error (Hash.base 5)))
      (fun i => i) 0 _ 2 2 (Except.error (Hash.base 5)) _ rfl rfl⟩

/-- C10: `complete()` reads only the siblings and the focus, never the hash
cache — two nodes agreeing on siblings and focus but with arbitrarily
different cache states complete identically — and no cached hash is
transplanted onto the frozen result: a frozen node produced by `complete()`
carries no stored hash. -/
theorem c10_complete_cache_independent {φ σ : Type}
    (fComplete : φ → Except Hash σ) (chash : σ → Hash) (fh : Nat)
    (n₁ n₂ : ActiveNode φ σ)
    (hsib : n₁.siblings = n₂.siblings) (hfoc : n₁.focus = n₂.focus) :
    activeComplete fComplete chash fh n₁ = activeComplete fComplete chash fh n₂ ∧
    ∀ node, activeComplete fComplete chash fh n₁ = Except.ok node →
      node.cachedHash = none := by
  constructor
  · simp [activeComplete, hsib, hfoc]
  · intro node hok
    unfold activeComplete from_siblings_and_focus_or_else_hash at hok
    rcases hs : n₁.siblings with _ | a | ⟨a, b⟩ | ⟨a, b, c⟩ <;> rw [hs] at hok <;>
      simp at hok
    rw [from_children_ok_eq (fh + 1) a b c (fComplete n₁.focus) node hok]

/-- Witness for C10: two concrete nodes, one with an empty cache and one with
a (bogus) populated cache, complete to the same result, and the frozen result
carries no stored hash. -/
theorem c10_complete_cache_independent_witness :
    ((⟨5, Three.three (Except.ok 1) (Except.ok 2) (Except.ok 3), none⟩ :
        ActiveNode Nat Nat).siblings =
      (⟨5, Three.three (Except.ok 1) (Except.ok 2) (Except.ok 3),
          some (Hash.base 99)⟩ : ActiveNode Nat Nat).siblings) ∧
    ((⟨5, Three.three (Except.ok 1) (Except.ok 2) (Except.ok 3), none⟩ :
        ActiveNode Nat Nat).focus =
      (⟨5, Three.three (Except.ok 1) (Except.ok 2) (Except.ok 3),
          some (Hash.base 99)⟩ : ActiveNode Nat Nat).focus) ∧
    (activeComplete (fun f => Except.ok f) Hash.base 0
        (⟨5, Three.three (Except.ok 1) (Except.ok 2) (Except.ok 3), none⟩ :
          ActiveNode Nat Nat) =
      activeComplete (fun f => Except.ok f) Hash.base 0
        (⟨5, Three.three (Except.ok 1) (Except.ok 2) (Except.ok 3),
            some (Hash.base 99)⟩ : ActiveNode Nat Nat) ∧
      ∀ node, activeComplete (fun f => Except.ok f) Hash.base 0
          (⟨5, Three.three (Except.ok 1) (Except.ok 2) (Except.ok 3), none⟩ :
            ActiveNode Nat Nat) = Except.ok node →
        node.cachedHash = none) :=
  ⟨rfl, rfl,
    c10_complete_cache_independent (fun f => Except.ok f) Hash.base 0 _ _ rfl rfl⟩

/-- C1: when the sibling buffer already holds 3 entries and the focus rejects
the item (handing it back with the focus's completed-or-hashed form),
`insert` fails, carrying the still-unplaced item unchanged and a carry that is
`from_children_or_else_hash` of exactly the four children — the 3 sibling
entries in order, then the focus's completed-or-hashed form — (the carry is
that value verbatim when no hash was cached) and whose combined hash is
`combine(height, h0, h1, h2, h3)` of those four children.  The cache
hypothesis is the §3 invariant (the cache, when present, holds the node's
hash); the `hfocHash` hypothesis is the recursive guarantee that the focus's
completed-or-hashed form hashes like the focus. -/
theorem c1_insert_carry {φ σ ι : Type} (chash : σ → Hash) (fhash : φ → Hash)
    (fInsert : φ → ι → Except (ι × Except Hash σ) φ) (fSingleton : ι → φ) (fh : Nat)
    (n : ActiveNode φ σ) (item : ι) (s1 s2 s3 sibling : Except Hash σ)
    (hsib : n.siblings = Three.three s1 s2 s3)
    (hfoc : fInsert n.focus item = Except.error (item, sibling))
    (hcache : n.hash = none ∨
      n.hash = some (hash_active chash fhash fh n.siblings n.focus))
    (hfocHash : hash_of_item chash sibling = fhash n.focus) :
    (n.hash = none →
      activeInsert fInsert fSingleton fh n item =
        Except.error (item, from_children_or_else_hash (fh + 1) (s1, s2, s3, sibling))) ∧
    ∃ carry, activeInsert fInsert fSingleton fh n item = Except.error (item, carry) ∧
      carryHash chash (fh + 1) carry =
        Hash.node (fh + 1) (hash_of_item chash s1) (hash_of_item chash s2)
          (hash_of_item chash s3) (hash_of_item chash sibling) := by
  have key : activeInsert fInsert fSingleton fh n item =
      Except.error (item,
        (from_children_or_else_hash (fh + 1) (s1, s2, s3, sibling)).map fun node =>
          match n.hash with
          | some h => node.set_hash_unchecked h
          | none => node) := by
    simp [activeInsert, hfoc, hsib, Three.push]
  constructor
  · intro hnone
    rw [key]
    rcases hfc : from_children_or_else_hash (fh + 1) (s1, s2, s3, sibling) with h | nd <;>
      simp [hnone, Except.map]
  · rcases hcache with hnone | hsome
    · refine ⟨from_children_or_else_hash (fh + 1) (s1, s2, s3, sibling), ?_,
        carryHash_from_children chash (fh + 1) s1 s2 s3 sibling⟩
      rw [key]
      rcases hfc : from_children_or_else_hash (fh + 1) (s1, s2, s3, sibling) with h | nd <;>
        simp [hnone, Except.map]
    · refine ⟨(from_children_or_else_hash (fh + 1) (s1, s2, s3, sibling)).map
          fun node =>
            node.set_hash_unchecked (hash_active chash fhash fh n.siblings n.focus),
        ?_, ?_⟩
      · rw [key]
        simp [hsome]
      · have hAB : hash_active chash fhash fh n.siblings n.focus =
            Hash.node (fh + 1) (hash_of_item chash s1) (hash_of_item chash s2)
              (hash_of_item chash s3) (hash_of_item chash sibling) := by
          rw [hsib]
          simp [hash_active, hfocHash]
        rw [← hAB]
        exact carryHash_from_children_transplant chash (fh + 1) s1 s2 s3 sibling _ hAB

/-- Witness for C1: concrete carry at a full buffer — siblings
`[retained 1, pruned (base 2), retained 3]`, focus `9` whose rejection hands
back item `5` and the pruned form `base 9`, empty cache. -/
theorem c1_insert_carry_witness :
    ((⟨9, Three.three (Except.ok 1) (Except.error (Hash.base 2)) (Except.ok 3), none⟩ :
        ActiveNode Nat Nat).siblings =
      Three.three (Except.ok 1) (Except.error (Hash.base 2)) (Except.ok 3)) ∧
    ((fun (_ : Nat) (i : Nat) =>
        (Except.error (i, Except.error (Hash.base 9)) :
          Except (Nat × Except Hash Nat) Nat)) 9 5 =
      Except.error (5, Except.error (Hash.base 9))) ∧
    (hash_of_item Hash.base (Except.error (Hash.base 9) : Except Hash Nat) =
      Hash.base 9) ∧
    (((⟨9, Three.three (Except.ok 1) (Except.error (Hash.base 2)) (Except.ok 3), none⟩ :
          ActiveNode Nat Nat).hash = none →
        activeInsert (fun _ i => Except.error (i, Except.error (Hash.base 9)))
            (fun i => i) 0
            (⟨9, Three.three (Except.ok 1) (Except.error (Hash.base 2)) (Except.ok 3),
              none⟩ : ActiveNode Nat Nat) 5 =
          Except.error (5, from_children_or_else_hash 1
            (Except.ok 1, Except.error (Hash.base 2), Except.ok 3,
              Except.error (Hash.base 9)))) ∧
      ∃ carry,
        activeInsert (fun _ i => Except.error (i, Except.error (Hash.base 9)))
            (fun i => i) 0
            (⟨9, Three.three (Except.ok 1) (Except.error (Hash.base 2)) (Except.ok 3),
              none⟩ : ActiveNode Nat Nat) 5 =
          Except.error (5, carry) ∧
        carryHash Hash.base 1 carry =
          Hash.node 1 (hash_of_item Hash.base (Except.ok 1))
            (hash_of_item Hash.base (Except.error (Hash.base 2)))
            (hash_of_item Hash.base (Except.ok 3))
            (hash_of_item Hash.base (Except.error (Hash.base 9)))) :=
  ⟨rfl, rfl, rfl,
    c1_insert_carry Hash.base Hash.base
      (fun _ i => Except.error (i, Except.error (Hash.base 9))) (fun i => i) 0
      _ 5 (Except.ok 1) (Except.error (Hash.base 2)) (Except.ok 3)
      (Except.error (Hash.base 9)) rfl rfl (Or.inl rfl) rfl⟩

/-- C4: when the carry path fires with a populated hash cache, the cached
value is force-assigned (`set_hash_unchecked`) onto the frozen carry value
instead of being recomputed, and — under the §3 cache invariant and the
recursive guarantee that the focus's completed-or-hashed form hashes like
the focus — the transplanted value equals what recomputation from the
carry's four children would produce. -/
theorem c4_hash_transplant {φ σ ι : Type} (chash : σ → Hash) (fhash : φ → Hash)
    (fInsert : φ → ι → Except (ι × Except Hash σ) φ) (fSingleton : ι → φ) (fh : Nat)
    (n : ActiveNode φ σ) (item item' : ι) (s1 s2 s3 sibling : Except Hash σ) (h : Hash)
    (hsib : n.siblings = Three.three s1 s2 s3)
    (hfoc : fInsert n.focus item = Except.error (item', sibling))
    (hcache : n.hash = some h)
    (hvalid : h = hash_active chash fhash fh n.siblings n.focus)
    (hfocHash : hash_of_item chash sibling = fhash n.focus) :
    activeInsert fInsert fSingleton fh n item =
      Except.error (item',
        (from_children_or_else_hash (fh + 1) (s1, s2, s3, sibling)).map
          fun node => node.set_hash_unchecked h) ∧
    ∀ node, from_children_or_else_hash (fh + 1) (s1, s2, s3, sibling) = Except.ok node →
      (node.set_hash_unchecked h).cachedHash = some h ∧
      (node.set_hash_unchecked h).recomputedHash chash (fh + 1) = h := by
  constructor
  · simp [activeInsert, hfoc, hsib, Three.push, hcache]
  · intro node hok
    rw [from_children_ok_eq (fh + 1) s1 s2 s3 sibling node hok]
    refine ⟨rfl, ?_⟩
    rw [hvalid, hsib]
    simp [CompleteNode.set_hash_unchecked, CompleteNode.recomputedHash, hash_active,
      hfocHash]

/-- Witness for C4: the carry path at a concrete node with a populated,
valid cache — the cached value lands on the carry node and matches
recomputation from the carry's four children. -/
theorem c4_hash_transplant_witness :
    ((⟨9, Three.three (Except.ok 1) (Except.error (Hash.base 2)) (Except.ok 3),
        some (Hash.node 1 (Hash.base 1) (Hash.base 2) (Hash.base 3) (Hash.base 9))⟩ :
        ActiveNode Nat Nat).siblings =
      Three.three (Except.ok 1) (Except.error (Hash.base 2)) (Except.ok 3)) ∧
    ((⟨9, Three.three (Except.ok 1) (Except.error (Hash.base 2)) (Except.ok 3),
        some (Hash.node 1 (Hash.base 1) (Hash.base 2) (Hash.base 3) (Hash.base 9))⟩ :
        ActiveNode Nat Nat).hash =
      some (Hash.node 1 (Hash.base 1) (Hash.base 2) (Hash.base 3) (Hash.base 9))) ∧
    (activeInsert (fun _ i => Except.error (i, Except.error (Hash.base 9)))
        (fun i => i) 0
        (⟨9, Three.three (Except.ok 1) (Except.error (Hash.base 2)) (Except.ok 3),
          some (Hash.node 1 (Hash.base 1) (Hash.base 2) (Hash.base 3) (Hash.base 9))⟩ :
          ActiveNode Nat Nat) 5 =
      Except.error (5,
        (from_children_or_else_hash 1
          (Except.ok 1, Except.error (Hash.base 2), Except.ok 3,
            Except.error (Hash.base 9))).map
          fun node => node.set_hash_unchecked
            (Hash.node 1 (Hash.base 1) (Hash.base 2) (Hash.base 3) (Hash.base 9))) ∧
      ∀ node, from_children_or_else_hash 1
          (Except.ok 1, Except.error (Hash.base 2), Except.ok 3,
            Except.error (Hash.base 9)) = Except.ok node →
        (node.set_hash_unchecked
            (Hash.node 1 (Hash.base 1) (Hash.base 2) (Hash.base 3)
              (Hash.base 9))).cachedHash =
          some (Hash.node 1 (Hash.base 1) (Hash.base 2) (Hash.base 3) (Hash.base 9)) ∧
        (node.set_hash_unchecked
            (Hash.node 1 (Hash.base 1) (Hash.base 2) (Hash.base 3)
              (Hash.base 9))).recomputedHash Hash.base 1 =
          Hash.node 1 (Hash.base 1) (Hash.base 2) (Hash.base 3) (Hash.base 9)) :=
  ⟨rfl, rfl,
    c4_hash_transplant Hash.base Hash.base
      (fun _ i => Except.error (i, Except.error (Hash.base 9))) (fun i => i) 0
      _ 5 5 (Except.ok 1) (Except.error (Hash.base 2)) (Except.ok 3)
      (Except.error (Hash.base 9))
      (Hash.node 1 (Hash.base 1) (Hash.base 2) (Hash.base 3) (Hash.base 9))
      rfl rfl rfl rfl rfl⟩

end PenumbraActive
